import Mathlib

/-!
# Verification of the PostgreSQL startup-phase proxy handler

A shallow embedding of the PostgreSQL protocol handler (`PostgresHandler.Handshake`
and `rebuildStartupMessage` in `cmd/proxy/internal/protocol/postgresql/handler.go`)
and the startup-forwarding step of the dispatch engine
(`cmd/proxy/internal/core/server.go`).

Byte strings are modelled as `List Nat` (Go strings and byte slices are byte
sequences; every literal below is spelled as its ASCII byte list).  The Go
`map[string]string` is modelled as an association list in which an insertion
removes any previous binding of the key and appends the new one; the map is only
ever observed through `lookupParam`, for which this representation is exactly
the Go map semantics (latest write wins, other keys untouched).

The handler's control flow after the bytes of one frame have been read from the
socket is pure; it is embedded as `decodeFrame` (frame decoding, with the Go
error cases kept apart as distinct constructors), `tenantParse`
(the `strings.Split(user, ".")` block), `finalizeParams` (the
`_raw_startup_message` construction) and `handshakeOutcome` (the whole
startup-message path of `Handshake`).  The in-band TLS upgrade itself is I/O
and is outside the model; `handshakeOutcome` reports the SSLRequest
classification that triggers it.
-/

/-- Big-endian interpretation of a byte list, as in `binary.BigEndian.Uint32`
(applied to 4-byte lists throughout). -/
def beUint32 (l : List Nat) : Nat :=
  l.foldl (fun acc b => acc * 256 + b) 0

/-- The four big-endian bytes of `n % 2^32`, as written by
`binary.BigEndian.PutUint32`. -/
def beBytes4 (n : Nat) : List Nat :=
  [n / 2 ^ 24 % 256, n / 2 ^ 16 % 256, n / 2 ^ 8 % 256, n % 256]

/-- `sslRequestCode` from handler.go. -/
def sslRequestCode : Nat := 80877103

/-- The bytes of the string literal `"user"`. -/
def userKey : List Nat := [117, 115, 101, 114]

/-- The bytes of the string literal `"pool"`. -/
def poolLit : List Nat := [112, 111, 111, 108]

/-- The bytes of the string literal `"pooled"`. -/
def pooledKey : List Nat := [112, 111, 111, 108, 101, 100]

/-- The bytes of the string literal `"true"`. -/
def trueLit : List Nat := [116, 114, 117, 101]

/-- The bytes of the string literal `"false"`. -/
def falseLit : List Nat := [102, 97, 108, 115, 101]

/-- The bytes of the string literal `"deployment_id"`. -/
def deploymentKey : List Nat := [100, 101, 112, 108, 111, 121, 109, 101, 110, 116, 95, 105, 100]

/-- The bytes of the string literal `"username"`. -/
def usernameKey : List Nat := [117, 115, 101, 114, 110, 97, 109, 101]

/-- The bytes of the string literal `"_raw_startup_message"` (the reserved
replay metadata key). -/
def rawStartupKey : List Nat :=
  [95, 114, 97, 119, 95, 115, 116, 97, 114, 116, 117, 112, 95, 109, 101, 115, 115, 97, 103, 101]

/-- The routing-metadata / startup-parameter map: keys and values are byte
strings; observed only through `lookupParam`. -/
abbrev Params := List (List Nat × List Nat)

/-- Value bound to `k`, if any (Go `params[k]` read). -/
def lookupParam (ps : Params) (k : List Nat) : Option (List Nat) :=
  match ps with
  | [] => none
  | p :: t => if p.1 = k then some p.2 else lookupParam t k

/-- Remove every binding of `k`. -/
def eraseKey (ps : Params) (k : List Nat) : Params :=
  match ps with
  | [] => []
  | p :: t => if p.1 = k then eraseKey t k else p :: eraseKey t k

/-- Go map assignment `params[k] = v`: the old binding of `k` (if any) is gone,
the new one is present, all other keys are untouched. -/
def insertParam (ps : Params) (k v : List Nat) : Params :=
  eraseKey ps k ++ [(k, v)]

/-- Sum over the pairs of `len(k) + 1 + len(v) + 1`, the pair-region byte count
accumulated by `rebuildStartupMessage`. -/
def sizeParams (ps : Params) : Nat :=
  (ps.map (fun p => p.1.length + p.2.length + 2)).sum

/-- The `k\0v\0...` pair region written by `rebuildStartupMessage`'s loop. -/
def encodePairs : Params → List Nat
  | [] => []
  | p :: t => p.1 ++ 0 :: (p.2 ++ 0 :: encodePairs t)

/-- `rebuildStartupMessage` from handler.go: length (4 bytes, big-endian),
protocol version (4 bytes), each pair as `k\0v\0`, one final NUL. -/
def rebuildStartupMessage (protocolVersion : Nat) (ps : Params) : List Nat :=
  beBytes4 ((4 + 4 + sizeParams ps + 1) % 2 ^ 32) ++
    beBytes4 (protocolVersion % 2 ^ 32) ++ encodePairs ps ++ [0]

/-- Split a byte list at every occurrence of `sep`; always returns at least one
chunk, and `n` separators yield `n + 1` chunks (the semantics of
`strings.Split` for a one-byte separator, and of repeated
`bytes.Buffer.ReadString(0)` reads: every chunk but the last was
delimiter-terminated, the last chunk is the unterminated remainder). -/
def splitOnByte (sep : Nat) : List Nat → List (List Nat)
  | [] => [[]]
  | b :: bs =>
    if b = sep then [] :: splitOnByte sep bs
    else
      match splitOnByte sep bs with
      | [] => [[b]]
      | t :: ts => (b :: t) :: ts

/-- The key/value loop of `Handshake` over the NUL-separated chunks of the
parameter region: a lone final chunk is an EOF on the key read (loop breaks,
chunk discarded), an empty key breaks the loop, a value hitting EOF is the
`malformed startup message` error (`none`). -/
def pairUp : List (List Nat) → Params → Option Params
  | [], acc => some acc
  | [_], acc => some acc
  | k :: v :: rest, acc =>
    if k = [] then some acc
    else if rest = [] then none
    else pairUp rest (insertParam acc k v)

/-- Parse the `Key\0Value\0...` region of a startup payload into a parameter
map (`none` = the Go `malformed startup message` error). -/
def parseParams (bytes : List Nat) : Option Params :=
  pairUp (splitOnByte 0 bytes) []

/-- Result of decoding one frame, with `Handshake`'s distinct error returns
kept apart: `errReadHeader` = failed to read the 4-byte length,
`errInvalidLength` = `invalid message length` (the header value, as a signed
32-bit integer, is below 4), `errReadPayload` = failed to read the body,
`errPayloadTooShort` = `payload too short`, `errMalformed` = malformed
key/value region. -/
inductive DecodeResult where
  | errReadHeader
  | errInvalidLength
  | errReadPayload
  | errPayloadTooShort
  | errMalformed
  | ssl
  | startup (version : Nat) (params : Params)
  deriving DecidableEq, Repr

/-- Frame decoding of `Handshake` on the byte stream `input` (the frame and
whatever follows it): read 4 header bytes, check
`int32(binary.BigEndian.Uint32(header)) < 4` (true exactly when the unsigned
value is below 4 or at least `2^31`), read `length - 4` payload bytes, classify
SSLRequest (payload at least 4 bytes and its first 4 bytes equal to
`sslRequestCode`), otherwise parse the startup message. -/
def decodeFrame (input : List Nat) : DecodeResult :=
  if input.length < 4 then .errReadHeader
  else if beUint32 (input.take 4) < 4 ∨ 2 ^ 31 ≤ beUint32 (input.take 4) then .errInvalidLength
  else if input.length < beUint32 (input.take 4) then .errReadPayload
  else if 4 ≤ ((input.drop 4).take (beUint32 (input.take 4) - 4)).length ∧
      beUint32 (((input.drop 4).take (beUint32 (input.take 4) - 4)).take 4) = sslRequestCode then
    .ssl
  else if ((input.drop 4).take (beUint32 (input.take 4) - 4)).length < 4 then .errPayloadTooShort
  else
    match parseParams (((input.drop 4).take (beUint32 (input.take 4) - 4)).drop 4) with
    | none => .errMalformed
    | some ps =>
      .startup (beUint32 (((input.drop 4).take (beUint32 (input.take 4) - 4)).take 4)) ps

/-- `strings.Join(parts, ".")`-style join with a one-byte separator. -/
def joinSep (sep : Nat) : List (List Nat) → List Nat
  | [] => []
  | [t] => t
  | t :: ts => t ++ sep :: joinSep sep ts

/-- The tenant-address block of `Handshake`: split the `user` value on `'.'`;
with at least two parts and last part `"pool"` set `pooled=true` and, with at
least three parts, also `deployment_id` and `username`; with at least two parts
otherwise set `pooled=false`, `deployment_id` and `username`; else only
`pooled=false`. -/
def tenantParse (u : List Nat) (ps : Params) : Params :=
  if 2 ≤ (splitOnByte 46 u).length then
    if (splitOnByte 46 u).getD ((splitOnByte 46 u).length - 1) [] = poolLit then
      if 3 ≤ (splitOnByte 46 u).length then
        insertParam
          (insertParam (insertParam ps pooledKey trueLit)
            deploymentKey ((splitOnByte 46 u).getD ((splitOnByte 46 u).length - 2) []))
          usernameKey (joinSep 46 ((splitOnByte 46 u).take ((splitOnByte 46 u).length - 2)))
      else insertParam ps pooledKey trueLit
    else
      insertParam
        (insertParam (insertParam ps pooledKey falseLit)
          deploymentKey ((splitOnByte 46 u).getD ((splitOnByte 46 u).length - 1) []))
        usernameKey (joinSep 46 ((splitOnByte 46 u).take ((splitOnByte 46 u).length - 1)))
  else insertParam ps pooledKey falseLit

/-- Run `tenantParse` on the `user` parameter when present (the
`if user, ok := params["user"]; ok` guard). -/
def augmentTenant (ps : Params) : Params :=
  match lookupParam ps userKey with
  | none => ps
  | some u => tenantParse u ps

/-- The `buildParams` map of `Handshake`: every parameter whose key is not
`deployment_id`, `pooled` or `username` is kept. -/
def dropInternalKeys (ps : Params) : Params :=
  match ps with
  | [] => []
  | p :: t =>
    if p.1 = deploymentKey ∨ p.1 = pooledKey ∨ p.1 = usernameKey then dropInternalKeys t
    else p :: dropInternalKeys t

/-- `buildParams` with `buildParams["user"] = newUser`. -/
def buildRewriteParams (ps : Params) (newUser : List Nat) : Params :=
  insertParam (dropInternalKeys ps) userKey newUser

/-- The replay-bytes block of `Handshake`: when `user` is present and a
`username` entry differs from it, rebuild the startup message from the filtered
parameters and the original protocol version; otherwise store the verbatim
`header ++ payload` bytes; in both cases under `_raw_startup_message`. -/
def finalizeParams (header payload : List Nat) (version : Nat) (ps : Params) : Params :=
  match lookupParam ps userKey with
  | none => ps
  | some originalUser =>
    match lookupParam ps usernameKey with
    | some newUser =>
      if newUser ≠ originalUser then
        insertParam ps rawStartupKey
          (rebuildStartupMessage version (buildRewriteParams ps newUser))
      else insertParam ps rawStartupKey (header ++ payload)
    | none => insertParam ps rawStartupKey (header ++ payload)

/-- What `Handshake` produces for one decoded frame: the SSLRequest
classification (after which the real handler writes `'S'` and upgrades to TLS),
or the routing metadata of a startup message. -/
inductive Outcome where
  | ssl
  | startup (md : Params)
  deriving DecidableEq, Repr

/-- The pure content of `Handshake` on the bytes `input` arriving from the
client: decode one frame, and for a startup message augment the parameters with
the tenant data and the replay bytes.  `none` is any of the error returns. -/
def handshakeOutcome (input : List Nat) : Option Outcome :=
  match decodeFrame input with
  | .ssl => some .ssl
  | .startup v ps =>
    some (.startup (finalizeParams (input.take 4)
      ((input.drop 4).take (beUint32 (input.take 4) - 4)) v (augmentTenant ps)))
  | _ => none

/-- The startup-forwarding step of `handleConnection` in core/server.go: the
bytes written to the backend before the two relay copies start — the value of
`_raw_startup_message` when present, nothing otherwise. -/
def backendStartupBytes (md : Params) : List Nat :=
  match lookupParam md rawStartupKey with
  | some raw => raw
  | none => []

/-- The keys of a parameter map. -/
def keysOf (ps : Params) : List (List Nat) := ps.map Prod.fst

/-! ## Concrete frames and metadata used by the claim theorems

Each frame is a full startup message as the client would send it: 4-byte
big-endian length, 4-byte protocol version `196608` (PostgreSQL 3.0), then
NUL-terminated key/value pairs and a final NUL. -/

/-- Startup frame with parameters `user=solo`. -/
def soloInput : List Nat :=
  [0, 0, 0, 19, 0, 3, 0, 0, 117, 115, 101, 114, 0, 115, 111, 108, 111, 0, 0]

/-- Metadata the handler produces for `soloInput`. -/
def soloMd : Params :=
  [(userKey, [115, 111, 108, 111]), (pooledKey, falseLit), (rawStartupKey, soloInput)]

/-- Startup frame with parameters `user=solo`, `username=bob`. -/
def c3Input : List Nat :=
  [0, 0, 0, 32, 0, 3, 0, 0, 117, 115, 101, 114, 0, 115, 111, 108, 111, 0,
   117, 115, 101, 114, 110, 97, 109, 101, 0, 98, 111, 98, 0, 0]

/-- Metadata the handler produces for `c3Input`: the client-supplied `username`
triggers the rebuild path, so the replay bytes are a re-encoded frame with
`user=bob`, not the wire bytes. -/
def c3Md : Params :=
  [(userKey, [115, 111, 108, 111]), (usernameKey, [98, 111, 98]), (pooledKey, falseLit),
   (rawStartupKey, [0, 0, 0, 18, 0, 3, 0, 0, 117, 115, 101, 114, 0, 98, 111, 98, 0, 0])]

/-- Startup frame with parameters `user=a.b`, `_raw_startup_message=x`. -/
def c4Input : List Nat :=
  [0, 0, 0, 41, 0, 3, 0, 0, 117, 115, 101, 114, 0, 97, 46, 98, 0,
   95, 114, 97, 119, 95, 115, 116, 97, 114, 116, 117, 112, 95, 109, 101, 115, 115, 97, 103, 101, 0,
   120, 0, 0]

/-- The frame the handler re-encodes for `c4Input`: it carries the client's
`_raw_startup_message=x` pair through to the backend. -/
def c4Rebuilt : List Nat :=
  [0, 0, 0, 39, 0, 3, 0, 0,
   95, 114, 97, 119, 95, 115, 116, 97, 114, 116, 117, 112, 95, 109, 101, 115, 115, 97, 103, 101, 0,
   120, 0, 117, 115, 101, 114, 0, 97, 0, 0]

/-- Metadata the handler produces for `c4Input`. -/
def c4Md : Params :=
  [(userKey, [97, 46, 98]), (pooledKey, falseLit), (deploymentKey, [98]),
   (usernameKey, [97]), (rawStartupKey, c4Rebuilt)]

/-- Startup frame with the single parameter `_raw_startup_message=x` and no
`user`. -/
def c10Input : List Nat :=
  [0, 0, 0, 32, 0, 3, 0, 0,
   95, 114, 97, 119, 95, 115, 116, 97, 114, 116, 117, 112, 95, 109, 101, 115, 115, 97, 103, 101, 0,
   120, 0, 0]

/-- A parameter value of `2^31 - 12` bytes `'a'`, for the length-overflow
corner of the codec round-trip. -/
def c1BigValue : List Nat := List.replicate (2 ^ 31 - 12) 97

/-- The one-pair parameter map `k -> c1BigValue` whose re-encoded frame is
exactly `2^31` bytes long. -/
def c1Params : Params := [([107], c1BigValue)]

/-- A wire-valid startup frame (declared length `2^31 - 1`, no trailing
terminator) that decodes to `(196608, c1Params)`. -/
def c1Frame : List Nat :=
  beBytes4 (2 ^ 31 - 1) ++ (beBytes4 196608 ++ encodePairs c1Params)

/-- A parameter value of 69985 bytes `'a'`; the frame encoding
`user -> c7Value` is 70000 bytes long, well above the spec's recommended
64 KiB ceiling. -/
def c7Value : List Nat := List.replicate 69985 97

/-- The one-pair map whose encoded frame is 70000 bytes. -/
def c7Params : Params := [(userKey, c7Value)]


/-! ## Basic lemmas about the byte-level primitives -/

theorem beBytes4_length (n : Nat) : (beBytes4 n).length = 4 := rfl

theorem beUint32_beBytes4 (n : Nat) (h : n < 2 ^ 32) : beUint32 (beBytes4 n) = n := by
  simp only [beBytes4, beUint32, List.foldl]
  omega

theorem beUint32_four (a b c d : Nat) :
    beUint32 [a, b, c, d] = ((a * 256 + b) * 256 + c) * 256 + d := by
  simp [beUint32, List.foldl]

theorem beUint32_sentinel (a b c d : Nat) (hb : b < 256) (hc : c < 256) (hd : d < 256) :
    beUint32 [a, b, c, d] = sslRequestCode ↔ a = 4 ∧ b = 210 ∧ c = 22 ∧ d = 47 := by
  rw [beUint32_four, sslRequestCode]
  omega

/-! ## Lemmas about the parameter-map operations -/

@[simp] theorem lookupParam_nil (k : List Nat) : lookupParam [] k = none := rfl

@[simp] theorem lookupParam_cons (p : List Nat × List Nat) (t : Params) (k : List Nat) :
    lookupParam (p :: t) k = if p.1 = k then some p.2 else lookupParam t k := rfl

@[simp] theorem eraseKey_nil (k : List Nat) : eraseKey [] k = [] := rfl

@[simp] theorem eraseKey_cons (p : List Nat × List Nat) (t : Params) (k : List Nat) :
    eraseKey (p :: t) k = if p.1 = k then eraseKey t k else p :: eraseKey t k := rfl

theorem lookupParam_append_of_none {a : Params} (b : Params) {k : List Nat}
    (h : lookupParam a k = none) : lookupParam (a ++ b) k = lookupParam b k := by
  induction a with
  | nil => rfl
  | cons p t ih =>
    by_cases hp : p.1 = k
    · rw [lookupParam_cons, if_pos hp] at h
      exact absurd h (by simp)
    · rw [lookupParam_cons, if_neg hp] at h
      rw [List.cons_append, lookupParam_cons, if_neg hp]
      exact ih h

theorem lookupParam_append_of_some {a : Params} (b : Params) {k v : List Nat}
    (h : lookupParam a k = some v) : lookupParam (a ++ b) k = some v := by
  induction a with
  | nil => exact absurd h (by simp)
  | cons p t ih =>
    by_cases hp : p.1 = k
    · rw [lookupParam_cons, if_pos hp] at h
      rw [List.cons_append, lookupParam_cons, if_pos hp]
      exact h
    · rw [lookupParam_cons, if_neg hp] at h
      rw [List.cons_append, lookupParam_cons, if_neg hp]
      exact ih h

theorem lookupParam_eraseKey_self (ps : Params) (k : List Nat) :
    lookupParam (eraseKey ps k) k = none := by
  induction ps with
  | nil => rfl
  | cons p t ih =>
    by_cases hp : p.1 = k
    · rw [eraseKey_cons, if_pos hp]
      exact ih
    · rw [eraseKey_cons, if_neg hp, lookupParam_cons, if_neg hp]
      exact ih

theorem lookupParam_eraseKey_ne (ps : Params) {k k' : List Nat} (h : k' ≠ k) :
    lookupParam (eraseKey ps k) k' = lookupParam ps k' := by
  induction ps with
  | nil => rfl
  | cons p t ih =>
    by_cases hp : p.1 = k
    · have hpk' : p.1 ≠ k' := fun hc => h (hc ▸ hp ▸ rfl)
      rw [eraseKey_cons, if_pos hp, lookupParam_cons, if_neg hpk']
      exact ih
    · by_cases hp' : p.1 = k'
      · rw [eraseKey_cons, if_neg hp, lookupParam_cons, if_pos hp', lookupParam_cons, if_pos hp']
      · rw [eraseKey_cons, if_neg hp, lookupParam_cons, if_neg hp', lookupParam_cons, if_neg hp']
        exact ih

theorem lookupParam_insertParam_self (ps : Params) (k v : List Nat) :
    lookupParam (insertParam ps k v) k = some v := by
  rw [insertParam, lookupParam_append_of_none _ (lookupParam_eraseKey_self ps k)]
  simp

theorem lookupParam_insertParam_ne (ps : Params) {k k' : List Nat} (v : List Nat) (h : k' ≠ k) :
    lookupParam (insertParam ps k v) k' = lookupParam ps k' := by
  rw [insertParam]
  cases hl : lookupParam (eraseKey ps k) k' with
  | none =>
    rw [lookupParam_append_of_none _ hl, lookupParam_cons]
    rw [if_neg (fun hc : k = k' => h hc.symm)]
    rw [lookupParam_eraseKey_ne ps h] at hl
    exact hl.symm
  | some w =>
    rw [lookupParam_append_of_some _ hl]
    rw [lookupParam_eraseKey_ne ps h] at hl
    exact hl.symm

theorem eraseKey_of_lookupParam_none {ps : Params} {k : List Nat}
    (h : lookupParam ps k = none) : eraseKey ps k = ps := by
  induction ps with
  | nil => rfl
  | cons p t ih =>
    by_cases hp : p.1 = k
    · rw [lookupParam_cons, if_pos hp] at h
      exact absurd h (by simp)
    · rw [lookupParam_cons, if_neg hp] at h
      rw [eraseKey_cons, if_neg hp, ih h]

theorem insertParam_of_lookupParam_none {ps : Params} {k : List Nat} (v : List Nat)
    (h : lookupParam ps k = none) : insertParam ps k v = ps ++ [(k, v)] := by
  rw [insertParam, eraseKey_of_lookupParam_none h]

theorem mem_eraseKey {ps : Params} {k : List Nat} {p : List Nat × List Nat}
    (h : p ∈ eraseKey ps k) : p ∈ ps := by
  induction ps with
  | nil => exact absurd h (by simp)
  | cons q t ih =>
    by_cases hq : q.1 = k
    · rw [eraseKey_cons, if_pos hq] at h
      exact List.mem_cons_of_mem q (ih h)
    · rw [eraseKey_cons, if_neg hq, List.mem_cons] at h
      rcases h with h | h
      · exact h ▸ List.mem_cons_self q t
      · exact List.mem_cons_of_mem q (ih h)

theorem mem_insertParam {ps : Params} {k v : List Nat} {p : List Nat × List Nat}
    (h : p ∈ insertParam ps k v) : p ∈ ps ∨ p = (k, v) := by
  rw [insertParam, List.mem_append] at h
  rcases h with h | h
  · exact Or.inl (mem_eraseKey h)
  · simp at h
    exact Or.inr h

theorem lookupParam_mem {ps : Params} {k v : List Nat} (h : lookupParam ps k = some v) :
    (k, v) ∈ ps := by
  induction ps with
  | nil => exact absurd h (by simp)
  | cons p t ih =>
    by_cases hp : p.1 = k
    · rw [lookupParam_cons, if_pos hp, Option.some_inj] at h
      have : p = (k, v) := by
        cases p
        simp_all
      exact this ▸ List.mem_cons_self p t
    · rw [lookupParam_cons, if_neg hp] at h
      exact List.mem_cons_of_mem p (ih h)

@[simp] theorem keysOf_nil : keysOf [] = [] := rfl

@[simp] theorem keysOf_cons (p : List Nat × List Nat) (t : Params) :
    keysOf (p :: t) = p.1 :: keysOf t := rfl

theorem lookupParam_eq_none_iff (ps : Params) (k : List Nat) :
    lookupParam ps k = none ↔ k ∉ keysOf ps := by
  induction ps with
  | nil => simp
  | cons p t ih =>
    by_cases hp : p.1 = k
    · simp [hp]
    · rw [lookupParam_cons, if_neg hp, keysOf_cons, List.mem_cons]
      rw [ih]
      constructor
      · rintro h (h1 | h2)
        · exact hp h1.symm
        · exact h h2
      · intro h
        exact fun hm => h (Or.inr hm)

theorem mem_keysOf_eraseKey {ps : Params} {k x : List Nat}
    (h : x ∈ keysOf (eraseKey ps k)) : x ∈ keysOf ps := by
  rw [keysOf, List.mem_map] at h
  obtain ⟨p, hp, he⟩ := h
  rw [keysOf, List.mem_map]
  exact ⟨p, mem_eraseKey hp, he⟩

theorem nodup_keysOf_eraseKey {ps : Params} (k : List Nat) (h : (keysOf ps).Nodup) :
    (keysOf (eraseKey ps k)).Nodup := by
  induction ps with
  | nil => simp
  | cons p t ih =>
    rw [keysOf_cons, List.nodup_cons] at h
    by_cases hp : p.1 = k
    · rw [eraseKey_cons, if_pos hp]
      exact ih h.2
    · rw [eraseKey_cons, if_neg hp, keysOf_cons, List.nodup_cons]
      exact ⟨fun hm => h.1 (mem_keysOf_eraseKey hm), ih h.2⟩

theorem nodup_keysOf_insertParam {ps : Params} (k v : List Nat) (h : (keysOf ps).Nodup) :
    (keysOf (insertParam ps k v)).Nodup := by
  rw [insertParam, keysOf, List.map_append]
  rw [List.nodup_append]
  refine ⟨nodup_keysOf_eraseKey k h, List.nodup_singleton k, ?_⟩
  intro x hx hxs
  have hxk : x = k := by simpa using hxs
  have := (lookupParam_eq_none_iff (eraseKey ps k) k).mp (lookupParam_eraseKey_self ps k)
  exact this (hxk ▸ hx)

/-! ## Lemmas about `splitOnByte` and `pairUp` -/

@[simp] theorem splitOnByte_nil (sep : Nat) : splitOnByte sep [] = [[]] := rfl

theorem splitOnByte_cons_sep (sep : Nat) (bs : List Nat) :
    splitOnByte sep (sep :: bs) = [] :: splitOnByte sep bs := by
  simp [splitOnByte]

theorem splitOnByte_ne_nil (sep : Nat) (l : List Nat) : splitOnByte sep l ≠ [] := by
  cases l with
  | nil => simp
  | cons b bs =>
    by_cases hb : b = sep
    · subst hb
      rw [splitOnByte_cons_sep]
      simp
    · simp only [splitOnByte, if_neg hb]
      cases h : splitOnByte sep bs <;> simp

theorem splitOnByte_cons_ne {sep b : Nat} (bs : List Nat) (hb : b ≠ sep) {t : List Nat}
    {ts : List (List Nat)} (h : splitOnByte sep bs = t :: ts) :
    splitOnByte sep (b :: bs) = (b :: t) :: ts := by
  simp [splitOnByte, hb, h]

theorem splitOnByte_head (sep : Nat) (l : List Nat) :
    ∃ t ts, splitOnByte sep l = t :: ts := by
  cases h : splitOnByte sep l with
  | nil => exact absurd h (splitOnByte_ne_nil sep l)
  | cons t ts => exact ⟨t, ts, rfl⟩

theorem splitOnByte_chunk {sep : Nat} {a : List Nat} (l : List Nat) (ha : sep ∉ a) :
    splitOnByte sep (a ++ sep :: l) = a :: splitOnByte sep l := by
  induction a with
  | nil => simpa using splitOnByte_cons_sep sep l
  | cons b a' ih =>
    have hb : b ≠ sep := fun hc => ha (hc ▸ List.mem_cons_self b a')
    have ha' : sep ∉ a' := fun hc => ha (List.mem_cons_of_mem b hc)
    rw [List.cons_append]
    exact splitOnByte_cons_ne _ hb (ih ha')

theorem mem_splitOnByte_not_sep {sep : Nat} {l t : List Nat} (h : t ∈ splitOnByte sep l) :
    sep ∉ t := by
  induction l generalizing t with
  | nil =>
    simp at h
    subst h
    simp
  | cons b bs ih =>
    by_cases hb : b = sep
    · subst hb
      rw [splitOnByte_cons_sep] at h
      rcases List.mem_cons.mp h with h | h
      · subst h; simp
      · exact ih h
    · obtain ⟨u, us, hu⟩ := splitOnByte_head sep bs
      rw [splitOnByte_cons_ne bs hb hu] at h
      rcases List.mem_cons.mp h with h | h
      · subst h
        intro hm
        rcases List.mem_cons.mp hm with hm | hm
        · exact hb hm.symm
        · exact ih (hu ▸ List.mem_cons_self u us) hm
      · exact ih (hu ▸ List.mem_cons_of_mem u h)

@[simp] theorem pairUp_nil (acc : Params) : pairUp [] acc = some acc := rfl

@[simp] theorem pairUp_single (t : List Nat) (acc : Params) : pairUp [t] acc = some acc := rfl

theorem pairUp_cons_cons (k v : List Nat) (rest : List (List Nat)) (acc : Params) :
    pairUp (k :: v :: rest) acc =
      if k = [] then some acc
      else if rest = [] then none
      else pairUp rest (insertParam acc k v) := by
  cases rest <;> rfl

theorem pairUp_some_entries {toks : List (List Nat)} {acc ps : Params}
    (h : pairUp toks acc = some ps) :
    ∀ p ∈ ps, p ∈ acc ∨ (p.1 ∈ toks ∧ p.2 ∈ toks ∧ p.1 ≠ []) := by
  induction toks, acc using pairUp.induct generalizing ps with
  | case1 acc =>
    rw [pairUp_nil, Option.some_inj] at h
    exact fun p hp => Or.inl (h ▸ hp)
  | case2 t acc =>
    rw [pairUp_single, Option.some_inj] at h
    exact fun p hp => Or.inl (h ▸ hp)
  | case3 v rest acc =>
    rw [pairUp_cons_cons, if_pos rfl, Option.some_inj] at h
    exact fun p hp => Or.inl (h ▸ hp)
  | case4 k v acc hk =>
    rw [pairUp_cons_cons, if_neg hk, if_pos rfl] at h
    exact absurd h (by simp)
  | case5 k v rest acc hk hrest ih =>
    rw [pairUp_cons_cons, if_neg hk, if_neg hrest] at h
    intro p hp
    rcases ih h p hp with hmem | ⟨h1, h2, h3⟩
    · rcases mem_insertParam hmem with hmem | hkv
      · exact Or.inl hmem
      · subst hkv
        exact Or.inr ⟨List.mem_cons_self _ _, List.mem_cons_of_mem _ (List.mem_cons_self _ _), hk⟩
    · exact Or.inr ⟨List.mem_cons_of_mem _ (List.mem_cons_of_mem _ h1),
        List.mem_cons_of_mem _ (List.mem_cons_of_mem _ h2), h3⟩

theorem pairUp_nodupKeys {toks : List (List Nat)} {acc ps : Params}
    (h : pairUp toks acc = some ps) (ha : (keysOf acc).Nodup) : (keysOf ps).Nodup := by
  induction toks, acc using pairUp.induct generalizing ps with
  | case1 acc =>
    rw [pairUp_nil, Option.some_inj] at h
    exact h ▸ ha
  | case2 t acc =>
    rw [pairUp_single, Option.some_inj] at h
    exact h ▸ ha
  | case3 v rest acc =>
    rw [pairUp_cons_cons, if_pos rfl, Option.some_inj] at h
    exact h ▸ ha
  | case4 k v acc hk =>
    rw [pairUp_cons_cons, if_neg hk, if_pos rfl] at h
    exact absurd h (by simp)
  | case5 k v rest acc hk hrest ih =>
    rw [pairUp_cons_cons, if_neg hk, if_neg hrest] at h
    exact ih h (nodup_keysOf_insertParam k v ha)

/-- Every entry produced by a successful `parseParams` has a non-empty key and
NUL-free key and value. -/
theorem parseParams_entries {bytes : List Nat} {ps : Params}
    (h : parseParams bytes = some ps) :
    ∀ p ∈ ps, p.1 ≠ [] ∧ (0 : Nat) ∉ p.1 ∧ (0 : Nat) ∉ p.2 := by
  intro p hp
  rcases pairUp_some_entries h p hp with hmem | ⟨h1, h2, h3⟩
  · exact absurd hmem (by simp)
  · exact ⟨h3, mem_splitOnByte_not_sep h1, mem_splitOnByte_not_sep h2⟩

/-- A successful `parseParams` yields a map with pairwise-distinct keys. -/
theorem parseParams_nodupKeys {bytes : List Nat} {ps : Params}
    (h : parseParams bytes = some ps) : (keysOf ps).Nodup :=
  pairUp_nodupKeys h (by simp)

/-! ## The encoder and the round-trip -/

@[simp] theorem encodePairs_nil : encodePairs [] = [] := rfl

@[simp] theorem encodePairs_cons (p : List Nat × List Nat) (t : Params) :
    encodePairs (p :: t) = p.1 ++ 0 :: (p.2 ++ 0 :: encodePairs t) := rfl

@[simp] theorem sizeParams_nil : sizeParams [] = 0 := rfl

@[simp] theorem sizeParams_cons (p : List Nat × List Nat) (t : Params) :
    sizeParams (p :: t) = p.1.length + p.2.length + 2 + sizeParams t := by
  simp [sizeParams]

@[simp] theorem insertParam_nil (k v : List Nat) : insertParam [] k v = [(k, v)] := rfl

theorem sizeParams_pair (k v : List Nat) (t : Params) :
    sizeParams ((k, v) :: t) = k.length + v.length + 2 + sizeParams t := by
  rw [sizeParams_cons]

theorem encodePairs_single (k v : List Nat) :
    encodePairs [(k, v)] = k ++ 0 :: (v ++ 0 :: []) := rfl

theorem encodePairs_length (P : Params) : (encodePairs P).length = sizeParams P := by
  induction P with
  | nil => rfl
  | cons p t ih =>
    simp [List.length_append, ih]
    omega

theorem pairUp_encodePairs (P : Params) (acc : Params)
    (hk : ∀ p ∈ P, p.1 ≠ [] ∧ (0 : Nat) ∉ p.1 ∧ (0 : Nat) ∉ p.2)
    (hfresh : ∀ p ∈ P, lookupParam acc p.1 = none)
    (hn : (keysOf P).Nodup) :
    pairUp (splitOnByte 0 (encodePairs P ++ [0])) acc = some (acc ++ P) := by
  induction P generalizing acc with
  | nil =>
    rw [encodePairs_nil, List.nil_append, splitOnByte_cons_sep, splitOnByte_nil]
    simp [pairUp_cons_cons]
  | cons p P' ih =>
    obtain ⟨k, v⟩ := p
    obtain ⟨hk1, hk2, hk3⟩ := hk (k, v) (List.mem_cons_self _ _)
    have hb : encodePairs ((k, v) :: P') ++ [0] =
        k ++ 0 :: (v ++ 0 :: (encodePairs P' ++ [0])) := by
      simp
    rw [hb, splitOnByte_chunk _ hk2, splitOnByte_chunk _ hk3, pairUp_cons_cons,
      if_neg hk1, if_neg (splitOnByte_ne_nil 0 (encodePairs P' ++ [0]))]
    rw [insertParam_of_lookupParam_none v (hfresh (k, v) (List.mem_cons_self _ _))]
    rw [keysOf_cons, List.nodup_cons] at hn
    have step := ih (acc ++ [(k, v)])
      (fun p hp => hk p (List.mem_cons_of_mem _ hp))
      (fun p hp => by
        rw [lookupParam_append_of_none _ (hfresh p (List.mem_cons_of_mem _ hp))]
        rw [lookupParam_cons]
        have hne : k ≠ p.1 := fun hc => hn.1 (hc ▸ List.mem_map.mpr ⟨p, hp, rfl⟩)
        rw [if_neg hne]
        rfl)
      hn.2
    rw [step, List.append_assoc]
    rfl

/-- Codec round-trip core: a frame produced by `rebuildStartupMessage` from a
well-formed parameter map whose total length stays below `2^31` decodes back to
exactly the same version and map. -/
theorem decodeFrame_rebuildStartupMessage (v : Nat) (P : Params) (hv : v < 2 ^ 32)
    (hs : v ≠ sslRequestCode)
    (hk : ∀ p ∈ P, p.1 ≠ [] ∧ (0 : Nat) ∉ p.1 ∧ (0 : Nat) ∉ p.2)
    (hn : (keysOf P).Nodup)
    (hb : 9 + sizeParams P < 2 ^ 31) :
    decodeFrame (rebuildStartupMessage v P) = .startup v P := by
  have hTLlt : 4 + 4 + sizeParams P + 1 < 2 ^ 32 := by omega
  have hmsg : rebuildStartupMessage v P =
      beBytes4 (4 + 4 + sizeParams P + 1) ++ (beBytes4 v ++ (encodePairs P ++ [0])) := by
    rw [rebuildStartupMessage, Nat.mod_eq_of_lt hTLlt, Nat.mod_eq_of_lt hv]
    simp [List.append_assoc]
  have hrest_len : (beBytes4 v ++ (encodePairs P ++ [0])).length = 4 + (sizeParams P + 1) := by
    simp [List.length_append, encodePairs_length, beBytes4]
    omega
  have hlenmsg : (rebuildStartupMessage v P).length = 4 + (4 + (sizeParams P + 1)) := by
    rw [hmsg, List.length_append, hrest_len, beBytes4_length]
  have htake : (rebuildStartupMessage v P).take 4 = beBytes4 (4 + 4 + sizeParams P + 1) := by
    rw [hmsg]
    exact List.take_left' (beBytes4_length _)
  have hL : beUint32 ((rebuildStartupMessage v P).take 4) = 4 + 4 + sizeParams P + 1 := by
    rw [htake, beUint32_beBytes4 _ hTLlt]
  have hdrop : (rebuildStartupMessage v P).drop 4 = beBytes4 v ++ (encodePairs P ++ [0]) := by
    rw [hmsg]
    exact List.drop_left' (beBytes4_length _)
  have hpay : ((rebuildStartupMessage v P).drop 4).take (4 + 4 + sizeParams P + 1 - 4) =
      beBytes4 v ++ (encodePairs P ++ [0]) := by
    rw [hdrop]
    apply List.take_of_length_le
    rw [hrest_len]
    omega
  have hptake : (beBytes4 v ++ (encodePairs P ++ [0])).take 4 = beBytes4 v :=
    List.take_left' (beBytes4_length _)
  have hpdrop : (beBytes4 v ++ (encodePairs P ++ [0])).drop 4 = encodePairs P ++ [0] :=
    List.drop_left' (beBytes4_length _)
  have hparse : parseParams (encodePairs P ++ [0]) = some P := by
    rw [parseParams, pairUp_encodePairs P [] hk (fun p hp => rfl) hn, List.nil_append]
  unfold decodeFrame
  rw [hL, hlenmsg, hpay, hrest_len, hptake, hpdrop, hparse, beUint32_beBytes4 v hv]
  rw [if_neg (by omega), if_neg (by omega), if_neg (by omega)]
  rw [if_neg (fun hc => hs hc.2), if_neg (by omega)]

/-! ## Lemmas about the tenant parser and the handshake assembly -/

theorem lookupParam_tenantParse_pooled (u : List Nat) (ps : Params) :
    lookupParam (tenantParse u ps) pooledKey = some trueLit ∨
    lookupParam (tenantParse u ps) pooledKey = some falseLit := by
  unfold tenantParse
  split_ifs with h1 h2 h3
  · left
    rw [lookupParam_insertParam_ne _ _ (by decide), lookupParam_insertParam_ne _ _ (by decide),
      lookupParam_insertParam_self]
  · left
    rw [lookupParam_insertParam_self]
  · right
    rw [lookupParam_insertParam_ne _ _ (by decide), lookupParam_insertParam_ne _ _ (by decide),
      lookupParam_insertParam_self]
  · right
    rw [lookupParam_insertParam_self]

theorem lookupParam_tenantParse_other (u : List Nat) (ps : Params) (k : List Nat)
    (h1 : k ≠ pooledKey) (h2 : k ≠ deploymentKey) (h3 : k ≠ usernameKey) :
    lookupParam (tenantParse u ps) k = lookupParam ps k := by
  unfold tenantParse
  split_ifs
  · rw [lookupParam_insertParam_ne _ _ h3, lookupParam_insertParam_ne _ _ h2,
      lookupParam_insertParam_ne _ _ h1]
  · rw [lookupParam_insertParam_ne _ _ h1]
  · rw [lookupParam_insertParam_ne _ _ h3, lookupParam_insertParam_ne _ _ h2,
      lookupParam_insertParam_ne _ _ h1]
  · rw [lookupParam_insertParam_ne _ _ h1]

theorem finalizeParams_shape (header payload : List Nat) (v : Nat) (ps : Params) :
    finalizeParams header payload v ps = ps ∨
    ∃ r, finalizeParams header payload v ps = insertParam ps rawStartupKey r := by
  unfold finalizeParams
  split
  · exact Or.inl rfl
  · split
    · split
      · exact Or.inr ⟨_, rfl⟩
      · exact Or.inr ⟨_, rfl⟩
    · exact Or.inr ⟨_, rfl⟩

theorem handshakeOutcome_startup_inv {input : List Nat} {md : Params}
    (h : handshakeOutcome input = some (.startup md)) :
    ∃ v ps, decodeFrame input = .startup v ps ∧
      md = finalizeParams (input.take 4)
        ((input.drop 4).take (beUint32 (input.take 4) - 4)) v (augmentTenant ps) := by
  unfold handshakeOutcome at h
  cases hd : decodeFrame input <;> rw [hd] at h <;> simp at h
  exact ⟨_, _, rfl, h.symm⟩

theorem take4_sentinel : ∀ (l : List Nat), 4 ≤ l.length → (∀ b ∈ l, b < 256) →
    (beUint32 (l.take 4) = sslRequestCode ↔ l.take 4 = [4, 210, 22, 47])
  | [], h, _ => by simp at h
  | [_], h, _ => by simp at h
  | [_, _], h, _ => by simp at h
  | [_, _, _], h, _ => by simp at h
  | a :: b :: c :: d :: rest, _, hb => by
    have h1 : b < 256 := hb b (by simp)
    have h2 : c < 256 := hb c (by simp)
    have h3 : d < 256 := hb d (by simp)
    show beUint32 [a, b, c, d] = sslRequestCode ↔ [a, b, c, d] = [4, 210, 22, 47]
    rw [beUint32_sentinel a b c d h1 h2 h3]
    simp

theorem c1BigValue_length : c1BigValue.length = 2 ^ 31 - 12 := by
  rw [c1BigValue, List.length_replicate]

theorem c1_sizeParams : sizeParams c1Params = 2 ^ 31 - 9 := by
  rw [c1Params, sizeParams_pair, sizeParams_nil, c1BigValue_length]
  show 1 + (2 ^ 31 - 12) + 2 + 0 = 2 ^ 31 - 9
  omega

theorem c1_not_mem_bigValue : (0 : Nat) ∉ c1BigValue := by
  rw [c1BigValue, List.mem_replicate]
  intro hc
  exact absurd hc.2 (by norm_num)

theorem c1Frame_decodes : decodeFrame c1Frame = .startup 196608 c1Params := by
  have henclen : (encodePairs c1Params).length = 2 ^ 31 - 9 := by
    rw [encodePairs_length, c1_sizeParams]
  have hrest : (beBytes4 196608 ++ encodePairs c1Params).length = 2 ^ 31 - 5 := by
    rw [List.length_append, beBytes4_length, henclen]
    norm_num
  have hflen : c1Frame.length = 2 ^ 31 - 1 := by
    rw [c1Frame, List.length_append, beBytes4_length, hrest]
    norm_num
  have htake : c1Frame.take 4 = beBytes4 (2 ^ 31 - 1) := by
    rw [c1Frame]
    exact List.take_left' (beBytes4_length _)
  have hL : beUint32 (c1Frame.take 4) = 2 ^ 31 - 1 := by
    rw [htake, beUint32_beBytes4 _ (by norm_num)]
  have hdrop : c1Frame.drop 4 = beBytes4 196608 ++ encodePairs c1Params := by
    rw [c1Frame]
    exact List.drop_left' (beBytes4_length _)
  have hpay : (c1Frame.drop 4).take (2 ^ 31 - 1 - 4) =
      beBytes4 196608 ++ encodePairs c1Params := by
    rw [hdrop]
    apply List.take_of_length_le
    rw [hrest]
    norm_num
  have hptake : (beBytes4 196608 ++ encodePairs c1Params).take 4 = beBytes4 196608 :=
    List.take_left' (beBytes4_length _)
  have hpv : beUint32 (beBytes4 196608) = 196608 := beUint32_beBytes4 _ (by norm_num)
  have hpdrop : (beBytes4 196608 ++ encodePairs c1Params).drop 4 = encodePairs c1Params :=
    List.drop_left' (beBytes4_length _)
  have hparse : parseParams (encodePairs c1Params) = some c1Params := by
    rw [parseParams, c1Params, encodePairs_single]
    rw [splitOnByte_chunk _ (by decide), splitOnByte_chunk _ c1_not_mem_bigValue,
      splitOnByte_nil]
    rw [pairUp_cons_cons, if_neg (by decide), if_neg (by simp), pairUp_single, insertParam_nil]
  unfold decodeFrame
  rw [hL, hflen, hpay, hrest, hptake, hpv, hpdrop, hparse]
  rw [if_neg (by norm_num), if_neg (by norm_num), if_neg (by norm_num)]
  rw [if_neg (fun hc => absurd hc.2 (by decide)), if_neg (by norm_num)]

theorem c1Rebuilt_invalid :
    decodeFrame (rebuildStartupMessage 196608 c1Params) = .errInvalidLength := by
  have hTL : 4 + 4 + sizeParams c1Params + 1 = 2 ^ 31 := by
    rw [c1_sizeParams]
    norm_num
  have hmsg : rebuildStartupMessage 196608 c1Params =
      beBytes4 (2 ^ 31) ++ (beBytes4 (196608 % 2 ^ 32) ++ (encodePairs c1Params ++ [0])) := by
    rw [rebuildStartupMessage, hTL, Nat.mod_eq_of_lt (by norm_num : (2:Nat) ^ 31 < 2 ^ 32)]
    simp [List.append_assoc]
  have hlen : (rebuildStartupMessage 196608 c1Params).length = 2 ^ 31 := by
    rw [hmsg, List.length_append, List.length_append, List.length_append, beBytes4_length,
      beBytes4_length, encodePairs_length, c1_sizeParams]
    norm_num
  have htake : (rebuildStartupMessage 196608 c1Params).take 4 = beBytes4 (2 ^ 31) := by
    rw [hmsg]
    exact List.take_left' (beBytes4_length _)
  have hL : beUint32 ((rebuildStartupMessage 196608 c1Params).take 4) = 2 ^ 31 := by
    rw [htake, beUint32_beBytes4 _ (by norm_num)]
  unfold decodeFrame
  rw [hL, hlen]
  rw [if_neg (by norm_num), if_pos (by norm_num)]

/-! ## The claims -/

/-- C1 (amended): codec round-trip — for any protocol version `v` (below
`2^32` and distinct from the SSL sentinel, as is the case for any decoded
startup frame) and any parameter map `P` with pairwise-distinct, non-empty,
NUL-free keys and NUL-free values, provided the re-encoded frame's total
length `9 + Σ (len k + len v + 2)` is below `2^31`, re-encoding `(v, P)` with
the startup-message encoder yields a frame that decodes back to exactly
`(v, P)`, with every key and value preserved byte-for-byte. -/
theorem c1_codec_roundtrip (v : Nat) (P : Params) (hv : v < 2 ^ 32)
    (hs : v ≠ sslRequestCode)
    (hk : ∀ p ∈ P, p.1 ≠ [] ∧ (0 : Nat) ∉ p.1 ∧ (0 : Nat) ∉ p.2)
    (hn : (keysOf P).Nodup)
    (hb : 9 + sizeParams P < 2 ^ 31) :
    decodeFrame (rebuildStartupMessage v P) = .startup v P :=
  decodeFrame_rebuildStartupMessage v P hv hs hk hn hb

/-- C1 witness: the round-trip at the concrete map `user -> a` and version
`196608`. -/
theorem c1_codec_roundtrip_witness :
    decodeFrame (rebuildStartupMessage 196608 [(userKey, [97])]) =
      .startup 196608 [(userKey, [97])] :=
  c1_codec_roundtrip 196608 [(userKey, [97])] (by decide) (by decide) (by decide) (by decide)
    (by decide)

/-- C1 counterexample to the claim as stated: `c1Frame` is a startup frame
that decodes to version `196608` and parameter map `c1Params` (one pair with a
non-empty NUL-free key and a NUL-free value), yet re-encoding that map with
the startup-message encoder yields bytes that do not decode back to
`(196608, c1Params)` — the re-encoded total length is exactly `2^31`, which
the decoder's signed-32-bit length check rejects as invalid. -/
theorem c1_codec_roundtrip_counterexample :
    decodeFrame c1Frame = .startup 196608 c1Params ∧
    ([107] ≠ ([] : List Nat) ∧ (0 : Nat) ∉ [107] ∧ (0 : Nat) ∉ c1BigValue) ∧
    decodeFrame (rebuildStartupMessage 196608 c1Params) ≠ .startup 196608 c1Params := by
  refine ⟨c1Frame_decodes, ⟨by decide, by decide, c1_not_mem_bigValue⟩, ?_⟩
  rw [c1Rebuilt_invalid]
  intro hc
  exact DecodeResult.noConfusion hc

/-- C2: the five literal tenant-parser examples — `alice.dep42`,
`alice.dep42.pool`, `a.b.c.dep42`, `a.b.c.dep42.pool` and `solo` produce
exactly the documented `username`, `deployment_id` and `pooled` entries, and
`solo` produces neither `deployment_id` nor `username`. -/
theorem c2_tenant_examples :
    (lookupParam (tenantParse [97, 108, 105, 99, 101, 46, 100, 101, 112, 52, 50]
        [(userKey, [97, 108, 105, 99, 101, 46, 100, 101, 112, 52, 50])]) usernameKey =
          some [97, 108, 105, 99, 101] ∧
      lookupParam (tenantParse [97, 108, 105, 99, 101, 46, 100, 101, 112, 52, 50]
        [(userKey, [97, 108, 105, 99, 101, 46, 100, 101, 112, 52, 50])]) deploymentKey =
          some [100, 101, 112, 52, 50] ∧
      lookupParam (tenantParse [97, 108, 105, 99, 101, 46, 100, 101, 112, 52, 50]
        [(userKey, [97, 108, 105, 99, 101, 46, 100, 101, 112, 52, 50])]) pooledKey =
          some falseLit) ∧
    (lookupParam (tenantParse [97, 108, 105, 99, 101, 46, 100, 101, 112, 52, 50, 46, 112, 111, 111, 108]
        [(userKey, [97, 108, 105, 99, 101, 46, 100, 101, 112, 52, 50, 46, 112, 111, 111, 108])]) usernameKey =
          some [97, 108, 105, 99, 101] ∧
      lookupParam (tenantParse [97, 108, 105, 99, 101, 46, 100, 101, 112, 52, 50, 46, 112, 111, 111, 108]
        [(userKey, [97, 108, 105, 99, 101, 46, 100, 101, 112, 52, 50, 46, 112, 111, 111, 108])]) deploymentKey =
          some [100, 101, 112, 52, 50] ∧
      lookupParam (tenantParse [97, 108, 105, 99, 101, 46, 100, 101, 112, 52, 50, 46, 112, 111, 111, 108]
        [(userKey, [97, 108, 105, 99, 101, 46, 100, 101, 112, 52, 50, 46, 112, 111, 111, 108])]) pooledKey =
          some trueLit) ∧
    (lookupParam (tenantParse [97, 46, 98, 46, 99, 46, 100, 101, 112, 52, 50]
        [(userKey, [97, 46, 98, 46, 99, 46, 100, 101, 112, 52, 50])]) usernameKey =
          some [97, 46, 98, 46, 99] ∧
      lookupParam (tenantParse [97, 46, 98, 46, 99, 46, 100, 101, 112, 52, 50]
        [(userKey, [97, 46, 98, 46, 99, 46, 100, 101, 112, 52, 50])]) deploymentKey =
          some [100, 101, 112, 52, 50] ∧
      lookupParam (tenantParse [97, 46, 98, 46, 99, 46, 100, 101, 112, 52, 50]
        [(userKey, [97, 46, 98, 46, 99, 46, 100, 101, 112, 52, 50])]) pooledKey =
          some falseLit) ∧
    (lookupParam (tenantParse [97, 46, 98, 46, 99, 46, 100, 101, 112, 52, 50, 46, 112, 111, 111, 108]
        [(userKey, [97, 46, 98, 46, 99, 46, 100, 101, 112, 52, 50, 46, 112, 111, 111, 108])]) usernameKey =
          some [97, 46, 98, 46, 99] ∧
      lookupParam (tenantParse [97, 46, 98, 46, 99, 46, 100, 101, 112, 52, 50, 46, 112, 111, 111, 108]
        [(userKey, [97, 46, 98, 46, 99, 46, 100, 101, 112, 52, 50, 46, 112, 111, 111, 108])]) deploymentKey =
          some [100, 101, 112, 52, 50] ∧
      lookupParam (tenantParse [97, 46, 98, 46, 99, 46, 100, 101, 112, 52, 50, 46, 112, 111, 111, 108]
        [(userKey, [97, 46, 98, 46, 99, 46, 100, 101, 112, 52, 50, 46, 112, 111, 111, 108])]) pooledKey =
          some trueLit) ∧
    (lookupParam (tenantParse [115, 111, 108, 111] [(userKey, [115, 111, 108, 111])]) pooledKey =
        some falseLit ∧
      lookupParam (tenantParse [115, 111, 108, 111] [(userKey, [115, 111, 108, 111])]) deploymentKey =
        none ∧
      lookupParam (tenantParse [115, 111, 108, 111] [(userKey, [115, 111, 108, 111])]) usernameKey =
        none) := by
  decide

/-- C3 (amended): replay fidelity without rewrite — for every successful
handshake of a startup message whose metadata has a `user` entry and whose
`username` entry is absent or equal to that `user` entry (in particular,
whenever the tenant parser derived no sanitized username and the client did
not itself send a differing `username` parameter), the replay bytes stored
under the reserved key are exactly the bytes read from the client: the 4-byte
header concatenated with the payload. -/
theorem c3_replay_no_rewrite (input : List Nat) (md : Params) (u : List Nat)
    (hh : handshakeOutcome input = some (.startup md))
    (hu : lookupParam md userKey = some u)
    (hw : lookupParam md usernameKey = none ∨ lookupParam md usernameKey = some u) :
    lookupParam md rawStartupKey =
      some (input.take 4 ++ (input.drop 4).take (beUint32 (input.take 4) - 4)) := by
  obtain ⟨v, ps, hd, hmd⟩ := handshakeOutcome_startup_inv hh
  cases hau : lookupParam (augmentTenant ps) userKey with
  | none =>
    exfalso
    unfold finalizeParams at hmd
    rw [hau] at hmd
    simp at hmd
    rw [hmd, hau] at hu
    exact Option.noConfusion hu
  | some u0 =>
    unfold finalizeParams at hmd
    rw [hau] at hmd
    cases haw : lookupParam (augmentTenant ps) usernameKey with
    | none =>
      rw [haw] at hmd
      simp at hmd
      rw [hmd, lookupParam_insertParam_self]
    | some w =>
      rw [haw] at hmd
      simp at hmd
      split at hmd
      · rw [hmd, lookupParam_insertParam_self]
      · exfalso
        rename_i hne
        have hmu : lookupParam md usernameKey = some w := by
          rw [hmd, lookupParam_insertParam_ne _ _ (by decide), haw]
        have hmu' : lookupParam md userKey = some u0 := by
          rw [hmd, lookupParam_insertParam_ne _ _ (by decide), hau]
        rcases hw with hw | hw
        · rw [hmu] at hw
          exact Option.noConfusion hw
        · have h1 : w = u := Option.some_inj.mp (hmu.symm.trans hw)
          have h2 : u = u0 := Option.some_inj.mp (hu.symm.trans hmu')
          exact hne (h1.trans h2)

/-- C3 witness: the handshake of a frame with the single parameter `user=solo`
stores the verbatim wire bytes under the reserved key. -/
theorem c3_replay_no_rewrite_witness :
    handshakeOutcome soloInput = some (.startup soloMd) ∧
    lookupParam soloMd rawStartupKey =
      some (soloInput.take 4 ++ (soloInput.drop 4).take (beUint32 (soloInput.take 4) - 4)) :=
  ⟨by decide, c3_replay_no_rewrite soloInput soloMd [115, 111, 108, 111] (by decide) (by decide)
    (Or.inl (by decide))⟩

/-- C3 counterexample to the claim as stated: for the frame `c3Input` with
parameters `user=solo`, `username=bob`, the handshake succeeds, the tenant
parser derives no sanitized username (`solo` splits into a single part), yet
the stored replay bytes are a re-encoded frame with `user=bob` rather than the
bytes read from the client — the client-supplied `username` parameter alone
triggers the rewrite. -/
theorem c3_replay_no_rewrite_counterexample :
    handshakeOutcome c3Input = some (.startup c3Md) ∧
    lookupParam c3Md userKey = some [115, 111, 108, 111] ∧
    (splitOnByte 46 [115, 111, 108, 111]).length = 1 ∧
    lookupParam c3Md rawStartupKey ≠
      some (c3Input.take 4 ++ (c3Input.drop 4).take (beUint32 (c3Input.take 4) - 4)) := by
  decide

/-- C4: on the failing input `c4Input` (parameters `user=a.b` and
`_raw_startup_message=x`), the handshake rewrites `user` to the sanitized
username `a`, and the re-encoded replay frame stored under the reserved key
decodes to a startup message in which the reserved replay key itself appears
as a parameter key — the `buildParams` filter removes only `deployment_id`,
`pooled` and `username`, so a client-supplied `_raw_startup_message` parameter
is re-emitted to the backend. -/
theorem c4_reserved_key_reemitted :
    handshakeOutcome c4Input = some (.startup c4Md) ∧
    lookupParam c4Md userKey = some [97, 46, 98] ∧
    lookupParam c4Md usernameKey = some [97] ∧
    lookupParam c4Md rawStartupKey = some c4Rebuilt ∧
    decodeFrame c4Rebuilt = .startup 196608 [(rawStartupKey, [120]), (userKey, [97])] ∧
    lookupParam [(rawStartupKey, [120]), (userKey, [97])] rawStartupKey = some [120] := by
  decide

/-- C5: SSL sentinel classification — a frame read from a byte stream is
classified as SSLRequest (after which the handler writes `'S'` and upgrades to
TLS) if and only if the frame reads successfully (header present, length
valid, payload complete), its payload is at least 4 bytes long, and the first
4 payload bytes are `0x04 0xD2 0x16 0x2F`, the big-endian encoding of
`80877103`; no other payload is classified as SSLRequest. -/
theorem c5_ssl_iff (input : List Nat) (hb : ∀ b ∈ input, b < 256) :
    decodeFrame input = .ssl ↔
      (4 ≤ input.length ∧ 4 ≤ beUint32 (input.take 4) ∧ beUint32 (input.take 4) < 2 ^ 31 ∧
        beUint32 (input.take 4) ≤ input.length ∧
        4 ≤ ((input.drop 4).take (beUint32 (input.take 4) - 4)).length ∧
        ((input.drop 4).take (beUint32 (input.take 4) - 4)).take 4 = [4, 210, 22, 47]) := by
  have hpb : ∀ b ∈ (input.drop 4).take (beUint32 (input.take 4) - 4), b < 256 :=
    fun b hm => hb b (List.mem_of_mem_drop (List.mem_of_mem_take hm))
  unfold decodeFrame
  by_cases h1 : input.length < 4
  · rw [if_pos h1]
    constructor
    · intro h
      exact absurd h (by simp)
    · rintro ⟨hA, -⟩
      omega
  · rw [if_neg h1]
    by_cases h2 : beUint32 (input.take 4) < 4 ∨ 2 ^ 31 ≤ beUint32 (input.take 4)
    · rw [if_pos h2]
      constructor
      · intro h
        exact absurd h (by simp)
      · rintro ⟨-, hB, hC, -⟩
        omega
    · rw [if_neg h2]
      by_cases h3 : input.length < beUint32 (input.take 4)
      · rw [if_pos h3]
        constructor
        · intro h
          exact absurd h (by simp)
        · rintro ⟨-, -, -, hD, -⟩
          omega
      · rw [if_neg h3]
        by_cases h4 : 4 ≤ ((input.drop 4).take (beUint32 (input.take 4) - 4)).length ∧
            beUint32 (((input.drop 4).take (beUint32 (input.take 4) - 4)).take 4) = sslRequestCode
        · rw [if_pos h4]
          constructor
          · intro _
            refine ⟨by omega, by omega, by omega, by omega, h4.1, ?_⟩
            exact (take4_sentinel _ h4.1 hpb).mp h4.2
          · intro _
            rfl
        · rw [if_neg h4]
          constructor
          · intro h
            by_cases h5 : ((input.drop 4).take (beUint32 (input.take 4) - 4)).length < 4
            · rw [if_pos h5] at h
              exact absurd h (by simp)
            · rw [if_neg h5] at h
              cases hp : parseParams (((input.drop 4).take (beUint32 (input.take 4) - 4)).drop 4) <;>
                rw [hp] at h <;> exact absurd h (by simp)
          · rintro ⟨-, -, -, -, hp4, hsent⟩
            exact absurd ⟨hp4, (take4_sentinel _ hp4 hpb).mpr hsent⟩ h4

/-- C5 witness: the canonical 8-byte SSLRequest frame is classified as
SSLRequest. -/
theorem c5_ssl_iff_witness :
    decodeFrame [0, 0, 0, 8, 4, 210, 22, 47] = .ssl ↔
      (4 ≤ List.length [0, 0, 0, 8, 4, 210, 22, 47] ∧
        4 ≤ beUint32 (List.take 4 [0, 0, 0, 8, 4, 210, 22, 47]) ∧
        beUint32 (List.take 4 [0, 0, 0, 8, 4, 210, 22, 47]) < 2 ^ 31 ∧
        beUint32 (List.take 4 [0, 0, 0, 8, 4, 210, 22, 47]) ≤
          List.length [0, 0, 0, 8, 4, 210, 22, 47] ∧
        4 ≤ (List.take (beUint32 (List.take 4 [0, 0, 0, 8, 4, 210, 22, 47]) - 4)
              (List.drop 4 [0, 0, 0, 8, 4, 210, 22, 47])).length ∧
        List.take 4 (List.take (beUint32 (List.take 4 [0, 0, 0, 8, 4, 210, 22, 47]) - 4)
              (List.drop 4 [0, 0, 0, 8, 4, 210, 22, 47])) = [4, 210, 22, 47]) :=
  c5_ssl_iff [0, 0, 0, 8, 4, 210, 22, 47] (by decide)

/-- C6 (amended): invalid-frame condition — after the 4-byte header is read,
the handshake fails with the invalid-frame error if and only if the header
value `L`, interpreted as a signed 32-bit integer, is below 4 — that is, iff
`L < 4` or `2^31 ≤ L` as an unsigned value; for every `L` with
`4 ≤ L < 2^31` the decoder instead proceeds to read exactly `L - 4` payload
bytes (failing with the read-payload error when fewer are available). -/
theorem c6_invalid_frame (input : List Nat) (h4 : 4 ≤ input.length) :
    (decodeFrame input = .errInvalidLength ↔
      (beUint32 (input.take 4) < 4 ∨ 2 ^ 31 ≤ beUint32 (input.take 4))) ∧
    (4 ≤ beUint32 (input.take 4) → beUint32 (input.take 4) < 2 ^ 31 →
      (input.length < beUint32 (input.take 4) → decodeFrame input = .errReadPayload) ∧
      (beUint32 (input.take 4) ≤ input.length →
        ((input.drop 4).take (beUint32 (input.take 4) - 4)).length =
          beUint32 (input.take 4) - 4)) := by
  have hnot4 : ¬ input.length < 4 := by omega
  constructor
  · constructor
    · intro h
      by_contra hc
      unfold decodeFrame at h
      rw [if_neg hnot4, if_neg hc] at h
      by_cases h5 : input.length < beUint32 (input.take 4)
      · rw [if_pos h5] at h
        exact absurd h (by simp)
      · rw [if_neg h5] at h
        by_cases h6 : 4 ≤ ((input.drop 4).take (beUint32 (input.take 4) - 4)).length ∧
            beUint32 (((input.drop 4).take (beUint32 (input.take 4) - 4)).take 4) = sslRequestCode
        · rw [if_pos h6] at h
          exact absurd h (by simp)
        · rw [if_neg h6] at h
          by_cases h7 : ((input.drop 4).take (beUint32 (input.take 4) - 4)).length < 4
          · rw [if_pos h7] at h
            exact absurd h (by simp)
          · rw [if_neg h7] at h
            cases hp : parseParams (((input.drop 4).take (beUint32 (input.take 4) - 4)).drop 4) <;>
              rw [hp] at h <;> exact absurd h (by simp)
    · intro hc
      unfold decodeFrame
      rw [if_neg hnot4, if_pos hc]
  · intro hge hlt
    constructor
    · intro hlen
      unfold decodeFrame
      rw [if_neg hnot4, if_neg (by omega), if_pos hlen]
    · intro hlen
      rw [List.length_take, List.length_drop]
      omega

/-- C6 witness: the amended statement at the complete 5-byte stream
`[0,0,0,5,0]` (declared length 5, one payload byte). -/
theorem c6_invalid_frame_witness :
    ((decodeFrame [0, 0, 0, 5, 0] = .errInvalidLength ↔
      (beUint32 (List.take 4 [0, 0, 0, 5, 0]) < 4 ∨
        2 ^ 31 ≤ beUint32 (List.take 4 [0, 0, 0, 5, 0]))) ∧
    (4 ≤ beUint32 (List.take 4 [0, 0, 0, 5, 0]) →
      beUint32 (List.take 4 [0, 0, 0, 5, 0]) < 2 ^ 31 →
      (List.length [0, 0, 0, 5, 0] < beUint32 (List.take 4 [0, 0, 0, 5, 0]) →
        decodeFrame [0, 0, 0, 5, 0] = .errReadPayload) ∧
      (beUint32 (List.take 4 [0, 0, 0, 5, 0]) ≤ List.length [0, 0, 0, 5, 0] →
        (List.take (beUint32 (List.take 4 [0, 0, 0, 5, 0]) - 4)
            (List.drop 4 [0, 0, 0, 5, 0])).length =
          beUint32 (List.take 4 [0, 0, 0, 5, 0]) - 4))) :=
  c6_invalid_frame [0, 0, 0, 5, 0] (by decide)

/-- C6 counterexample to the claim as stated: the header `[128,0,0,0]`
declares the big-endian unsigned length `2^31 ≥ 4`, for which the claim says
the decoder proceeds to read the payload, but the code's `int32` cast makes it
fail with the invalid-frame error. -/
theorem c6_invalid_frame_counterexample :
    4 ≤ beUint32 (List.take 4 [128, 0, 0, 0]) ∧
    decodeFrame [128, 0, 0, 0] = .errInvalidLength := by
  decide

theorem c7Value_length : c7Value.length = 69985 := by
  rw [c7Value, List.length_replicate]

theorem c7_sizeParams : sizeParams c7Params = 69991 := by
  rw [c7Params, sizeParams_pair, sizeParams_nil, c7Value_length]
  show 4 + 69985 + 2 + 0 = 69991
  omega

/-- C7: there is no frame-size ceiling — a startup frame whose declared
length is 70000 (beyond the 64 KiB ceiling the claim requires) is not
rejected: the decoder accepts it as an ordinary startup message instead of
failing with a frame-too-large error (no such error exists in the code). -/
theorem c7_no_frame_ceiling :
    65536 < beUint32 ((rebuildStartupMessage 196608 c7Params).take 4) ∧
    decodeFrame (rebuildStartupMessage 196608 c7Params) = .startup 196608 c7Params := by
  have hdec : decodeFrame (rebuildStartupMessage 196608 c7Params) = .startup 196608 c7Params := by
    apply decodeFrame_rebuildStartupMessage
    · norm_num
    · decide
    · intro p hp
      rw [c7Params, List.mem_singleton] at hp
      subst hp
      refine ⟨by decide, by decide, ?_⟩
      rw [c7Value, List.mem_replicate]
      rintro ⟨-, hc⟩
      exact absurd hc (by norm_num)
    · rw [c7Params, keysOf_cons, keysOf_nil]
      exact List.nodup_singleton _
    · rw [c7_sizeParams]
      norm_num
  refine ⟨?_, hdec⟩
  have hTL : 4 + 4 + sizeParams c7Params + 1 = 70000 := by
    rw [c7_sizeParams]
  have hmsg : rebuildStartupMessage 196608 c7Params =
      beBytes4 (70000 % 2 ^ 32) ++
        (beBytes4 (196608 % 2 ^ 32) ++ (encodePairs c7Params ++ [0])) := by
    rw [rebuildStartupMessage, hTL, List.append_assoc, List.append_assoc]
  have htake : (rebuildStartupMessage 196608 c7Params).take 4 = beBytes4 (70000 % 2 ^ 32) := by
    rw [hmsg]
    exact List.take_left' (beBytes4_length _)
  rw [htake, Nat.mod_eq_of_lt (by norm_num : (70000 : Nat) < 2 ^ 32),
    beUint32_beBytes4 _ (by norm_num)]
  norm_num

/-- C8: the two-part pool edge case — whenever the `user` value splits on
`'.'` into exactly two parts whose second part is the literal `pool`, the
tenant parser's entire effect is to set `pooled=true`: it sets neither
`deployment_id` nor `username`. -/
theorem c8_two_part_pool (u : List Nat) (ps : Params)
    (h1 : (splitOnByte 46 u).length = 2)
    (h2 : (splitOnByte 46 u).getD 1 [] = poolLit) :
    tenantParse u ps = insertParam ps pooledKey trueLit := by
  unfold tenantParse
  rw [h1, if_pos (by norm_num : (2 : Nat) ≤ 2)]
  rw [show (2 : Nat) - 1 = 1 from rfl, h2, if_pos rfl, if_neg (by norm_num : ¬(3 : Nat) ≤ 2)]

/-- C8 witness: the user string `x.pool`. -/
theorem c8_two_part_pool_witness :
    tenantParse [120, 46, 112, 111, 111, 108] [] = insertParam [] pooledKey trueLit :=
  c8_two_part_pool [120, 46, 112, 111, 111, 108] [] (by decide) (by decide)

/-- C9: pooled-flag totality — for every startup message handshake that
succeeds with metadata containing a `user` entry, the metadata contains a
`pooled` entry whose value is exactly `"true"` or `"false"`; it is never
absent and never anything else. -/
theorem c9_pooled_total (input : List Nat) (md : Params) (u : List Nat)
    (hh : handshakeOutcome input = some (.startup md))
    (hu : lookupParam md userKey = some u) :
    lookupParam md pooledKey = some trueLit ∨ lookupParam md pooledKey = some falseLit := by
  obtain ⟨v, ps, hd, hmd⟩ := handshakeOutcome_startup_inv hh
  have hpool : lookupParam md pooledKey = lookupParam (augmentTenant ps) pooledKey := by
    rcases finalizeParams_shape (input.take 4)
        ((input.drop 4).take (beUint32 (input.take 4) - 4)) v (augmentTenant ps) with
      hsh | ⟨r, hsh⟩
    · rw [hmd, hsh]
    · rw [hmd, hsh, lookupParam_insertParam_ne _ _ (by decide)]
  have huser : lookupParam (augmentTenant ps) userKey = some u := by
    rcases finalizeParams_shape (input.take 4)
        ((input.drop 4).take (beUint32 (input.take 4) - 4)) v (augmentTenant ps) with
      hsh | ⟨r, hsh⟩
    · rw [hmd, hsh] at hu
      exact hu
    · rw [hmd, hsh, lookupParam_insertParam_ne _ _ (by decide)] at hu
      exact hu
  rw [hpool]
  cases hpu : lookupParam ps userKey with
  | none =>
    exfalso
    have haug : augmentTenant ps = ps := by
      unfold augmentTenant
      rw [hpu]
    rw [haug, hpu] at huser
    exact Option.noConfusion huser
  | some u0 =>
    have haug : augmentTenant ps = tenantParse u0 ps := by
      unfold augmentTenant
      rw [hpu]
    rw [haug]
    exact lookupParam_tenantParse_pooled u0 ps

/-- C9 witness: the `user=solo` handshake carries `pooled=false`. -/
theorem c9_pooled_total_witness :
    lookupParam soloMd pooledKey = some trueLit ∨
    lookupParam soloMd pooledKey = some falseLit :=
  c9_pooled_total soloInput soloMd [115, 111, 108, 111] (by decide) (by decide)

/-- C10: on the failing input `c10Input` (a startup frame whose only
parameter is `_raw_startup_message=x`, with no `user` key), the handshake
succeeds but the returned metadata does contain the reserved replay key — the
client-supplied parameter is kept verbatim — and the dispatch engine therefore
writes that client-chosen byte to the backend instead of zero bytes. -/
theorem c10_injected_replay_key :
    handshakeOutcome c10Input = some (.startup [(rawStartupKey, [120])]) ∧
    lookupParam [(rawStartupKey, [120])] userKey = none ∧
    lookupParam [(rawStartupKey, [120])] rawStartupKey = some [120] ∧
    backendStartupBytes [(rawStartupKey, [120])] = [120] := by
  decide
